import Mathlib

/-!
Shallow embedding of the GPVisualizer repository (a Vue 3 Gaussian-Process
visualization app) for checking its natural-language specification.

Numeric model: JavaScript numbers are embedded as elements of an arbitrary
linearly ordered field `F` (exact arithmetic; the claims are algebraic or
structural, not about floating-point rounding).  Transcendental functions
used by the code (`Math.exp`, `Math.sqrt`) are abstracted as an explicit
record of functions `Irr F`; every theorem below holds for every
interpretation of them.  Witnesses instantiate `F := ℚ`.

The GP engine proper (`computePosterior`, `cholesky`, `linspace`, the
kernels) lives in `GPzoo.js` / `src/utils/gp.js`, which is not among the
provided sources; those definitions are modelled from the specification
(each such definition says so in its doc comment).  The UI layer
(`App.vue`, `GPCanvas.vue`) is embedded from the provided source.
-/

namespace GPV

section Defs

variable {F : Type} [LinearOrderedField F]

/-- Observation point `{x, y}` as created by the UI (App.vue / GPCanvas.vue). -/
structure ObsPoint (F : Type) where
  x : F
  y : F
deriving DecidableEq

/-- Viewport bounds `{xMin, xMax, yMin, yMax}` (GPCanvas.vue). -/
structure Bounds (F : Type) where
  xMin : F
  xMax : F
  yMin : F
  yMax : F
deriving DecidableEq

/-- Kernel identifiers, the closed enumeration from the kernel library. -/
inductive KernelId where
  | rbf
  | matern12
  | matern32
  | matern52
deriving DecidableEq

/-- Parameter record `{lengthScale, signalVariance, noiseLevel, kernel}` (App.vue
`gpParams` computed value). -/
structure Params (F : Type) where
  lengthScale : F
  signalVariance : F
  noiseLevel : F
  kernel : KernelId
deriving DecidableEq

/-- Validity of a parameter record per the spec data model:
`lengthScale > 0`, `signalVariance > 0`, `noiseLevel ≥ 0`. -/
def ParamsValid (p : Params F) : Prop :=
  0 < p.lengthScale ∧ 0 < p.signalVariance ∧ 0 ≤ p.noiseLevel

instance (p : Params ℚ) : Decidable (ParamsValid p) := by
  unfold ParamsValid; infer_instance

/-- Abstraction of the irrational primitives `Math.exp` and `Math.sqrt` that the
kernel library and Cholesky factorization call; the theorems hold for every
interpretation of these. -/
structure Irr (F : Type) where
  exp : F → F
  sqrt : F → F

/-- Posterior result `{mean, variance}` returned by `computePosterior`. -/
structure Posterior (F : Type) where
  mean : List F
  variance : List F
deriving DecidableEq

/-- Sample `{x, y}` pushed into the UI sample history (App.vue `sampleGP`). -/
structure GPSample (F : Type) where
  x : List F
  y : List F
deriving DecidableEq

/-- Failure signal of the Cholesky factorization (spec §4.1/§7:
`NotPositiveDefiniteError`). -/
inductive CholError where
  | notPositiveDefinite
deriving DecidableEq

/-- Dot product of two vectors, truncating to the shorter length. -/
def dotL (u v : List F) : F :=
  ((u.zip v).map fun p => p.1 * p.2).sum

/-- Modelled from the spec: `linspace(start, end, n)` (§4.1, missing from the
provided sources together with the rest of `GPzoo.js`): `n` evenly spaced
points from `start` to `end` inclusive, `[start]` when `n = 1`. -/
def linspace (start stop : F) (n : ℕ) : List F :=
  if n = 1 then [start]
  else (List.range n).map fun (i : ℕ) => start + (i : F) * ((stop - start) / ((n : F) - 1))

/-- Modelled from the spec: off-diagonal entries of row `i` of the Cholesky
factor, given the already-computed rows `L` (row `j` entry is
`(A[i][j] - Σ_(k<j) L[i][k]·L[j][k]) / L[j][j]`). -/
def cholOffDiag (Ai : List F) (L : List (List F)) : List F :=
  L.foldl (fun acc Lj =>
    acc ++ [(Ai.getD acc.length 0 - dotL acc Lj) / Lj.getD acc.length 0]) []

/-- Modelled from the spec: the diagonal pivot of the next Cholesky row:
`A[i][i] - Σ_(k<i) L[i][k]²`. -/
def cholPivot (Ai : List F) (L : List (List F)) : F :=
  Ai.getD L.length 0 - dotL (cholOffDiag Ai L) (cholOffDiag Ai L)

/-- Modelled from the spec: one step of the Cholesky factorization, processing
row `Ai` of `A` given the previously computed rows `L`; fails with
`NotPositiveDefiniteError` when the diagonal pivot is `≤ 0` (§4.1). -/
def cholStep (sq : F → F) (L : List (List F)) (Ai : List F) :
    Except CholError (List (List F)) :=
  if cholPivot Ai L ≤ 0 then .error .notPositiveDefinite
  else .ok (L ++ [cholOffDiag Ai L ++ [sq (cholPivot Ai L)]])

/-- Modelled from the spec: `cholesky(A)` — lower-triangular `L` with
`L·Lᵗ = A`, failing with `NotPositiveDefiniteError` when a diagonal pivot
becomes `≤ 0` during factorization (§4.1). -/
def cholesky (sq : F → F) (A : List (List F)) : Except CholError (List (List F)) :=
  A.foldlM (cholStep sq) []

/-- Modelled from the spec: `solveL(L, b)` — forward substitution solving
`L·y = b` (§4.1). -/
def solveL (L : List (List F)) (b : List F) : List F :=
  (L.zip b).foldl (fun ys p => ys ++ [(p.2 - dotL ys p.1) / p.1.getD ys.length 0]) []

/-- Modelled from the spec: `solveLt(L, b)` — back substitution solving
`Lᵗ·x = b` (§4.1). -/
def solveLt (L : List (List F)) (b : List F) : List F :=
  (List.range L.length).reverse.foldl
    (fun xs i =>
      ((b.getD i 0 - dotL ((L.drop (i + 1)).map fun row => row.getD i 0) xs) /
        ((L.getD i []).getD i 0)) :: xs)
    []

/-- Modelled from the spec: `choleskySolve(L, b)` — the two triangular solves
composed, solving `L·Lᵗ·x = b` (§4.1). -/
def choleskySolve (L : List (List F)) (b : List F) : List F :=
  solveLt L (solveL L b)

/-- Modelled from the spec: the RBF kernel `σ²·exp(-r²/2)`, `r = |x - x'|/ℓ` (§4.2). -/
def rbf (irr : Irr F) (l s2 : F) (x xp : F) : F :=
  s2 * irr.exp (-((|x - xp| / l) ^ 2 / 2))

/-- Modelled from the spec: the Matérn 1/2 kernel `σ²·exp(-r)` (§4.2). -/
def matern12 (irr : Irr F) (l s2 : F) (x xp : F) : F :=
  s2 * irr.exp (-(|x - xp| / l))

/-- Modelled from the spec: the Matérn 3/2 kernel `σ²·(1 + √3·r)·exp(-√3·r)` (§4.2). -/
def matern32 (irr : Irr F) (l s2 : F) (x xp : F) : F :=
  s2 * (1 + irr.sqrt 3 * (|x - xp| / l)) * irr.exp (-(irr.sqrt 3 * (|x - xp| / l)))

/-- Modelled from the spec: the Matérn 5/2 kernel
`σ²·(1 + √5·r + 5r²/3)·exp(-√5·r)` (§4.2). -/
def matern52 (irr : Irr F) (l s2 : F) (x xp : F) : F :=
  s2 * (1 + irr.sqrt 5 * (|x - xp| / l) + 5 * (|x - xp| / l) ^ 2 / 3) *
    irr.exp (-(irr.sqrt 5 * (|x - xp| / l)))

/-- Modelled from the spec: resolution of the enumerated kernel identifier to a
concrete covariance function (§4.2). -/
def resolveKernel (irr : Irr F) (p : Params F) : F → F → F :=
  match p.kernel with
  | .rbf => rbf irr p.lengthScale p.signalVariance
  | .matern12 => matern12 irr p.lengthScale p.signalVariance
  | .matern32 => matern32 irr p.lengthScale p.signalVariance
  | .matern52 => matern52 irr p.lengthScale p.signalVariance

/-- Modelled from the spec: the training covariance matrix
`K[i][j] = k(x_i, x_j) + σₙ²·[i=j]` (§4.3, noise added only on the diagonal,
by index, so duplicate x-values still get distinct diagonal noise). -/
def covMatrix (irr : Irr F) (observations : List (ObsPoint F)) (p : Params F) :
    List (List F) :=
  observations.mapIdx fun i oi =>
    observations.mapIdx fun j oj =>
      resolveKernel irr p oi.x oj.x + if i = j then p.noiseLevel ^ 2 else 0

/-- Modelled from the spec: `computePosterior(observations, testX, params)`
(§4.3).  Empty observations give the GP prior (zero mean, `σ²` variance);
otherwise `K` is factored by Cholesky, `α = choleskySolve(L, y)`,
`mean[j] = K_*[:,j]ᵗ·α`, and
`variance[j] = max(0, k(t_j,t_j) - v_jᵗ·v_j)` with `v_j = solveL(L, K_*[:,j])`;
a Cholesky failure is propagated as the distinguishable error. -/
def computePosterior (irr : Irr F) (observations : List (ObsPoint F))
    (testX : List F) (p : Params F) : Except CholError (Posterior F) :=
  if observations.isEmpty then
    .ok ⟨testX.map fun _ => 0, testX.map fun _ => p.signalVariance⟩
  else
    match cholesky irr.sqrt (covMatrix irr observations p) with
    | .error e => .error e
    | .ok L =>
      .ok ⟨testX.map fun t =>
             dotL (observations.map fun o => resolveKernel irr p o.x t)
               (choleskySolve L (observations.map fun o => o.y)),
           testX.map fun t =>
             max 0 (resolveKernel irr p t t -
               dotL (solveL L (observations.map fun o => resolveKernel irr p o.x t))
                    (solveL L (observations.map fun o => resolveKernel irr p o.x t)))⟩

/-! UI layer: constants and grid construction from App.vue (the current
version importing from `gpzoo`) and its legacy variant importing from
`@/utils/gp`, plus the viewport logic of `src/components/GPCanvas.vue`. -/

/-- Default viewport bounds `{xMin: -3, xMax: 3, yMin: -2, yMax: 2}`
(GPCanvas.vue `defaultBounds`, also the initial `bounds` ref in App.vue). -/
def defaultBounds : Bounds F := ⟨-3, 3, -2, 2⟩

/-- Number of test points for GP computation (App.vue `const numTest = 300`,
identically in GPCanvas.vue). -/
def numTest : ℕ := 300

/-- Display test grid (App.vue `testX` computed value):
`linspace(bounds.xMin, bounds.xMax, numTest)`. -/
def testX (b : Bounds F) : List F :=
  linspace b.xMin b.xMax numTest

/-- The grid the current App.vue passes to `sampleFromGP` in `sampleGP()`:
`sampleFromGP(points, testX.value, gpParams.value)` — i.e. `testX` itself. -/
def sampleGPGrid (b : Bounds F) : List F :=
  testX b

/-- The grid the legacy App.vue variant (importing from `@/utils/gp`) passes to
`sampleFromGP`: `linspace(bounds.xMin, bounds.xMax, 150)`. -/
def legacySampleGrid (b : Bounds F) : List F :=
  linspace b.xMin b.xMax 150

/-- Data-to-canvas x transform (GPCanvas.vue line 39), with the closed-over
`width` made an explicit argument. -/
def toCanvasX (b : Bounds F) (w x : F) : F :=
  ((x - b.xMin) / (b.xMax - b.xMin)) * w

/-- Data-to-canvas y transform (GPCanvas.vue line 40). -/
def toCanvasY (b : Bounds F) (h y : F) : F :=
  h - ((y - b.yMin) / (b.yMax - b.yMin)) * h

/-- Canvas-to-data x transform (GPCanvas.vue line 41). -/
def toDataX (b : Bounds F) (w cx : F) : F :=
  b.xMin + (cx / w) * (b.xMax - b.xMin)

/-- Canvas-to-data y transform (GPCanvas.vue line 42). -/
def toDataY (b : Bounds F) (h cy : F) : F :=
  b.yMax - (cy / h) * (b.yMax - b.yMin)

/-- Zoom limit constant (GPCanvas.vue `MAX_SCALE_FACTOR = 4`). -/
def maxScaleFactor : F := 4

/-- Zoom limit constant (GPCanvas.vue `MIN_ZOOM = 1 / MAX_SCALE_FACTOR`). -/
def minZoom : F := 1 / maxScaleFactor

/-- Zoom limit constant (GPCanvas.vue `MAX_ZOOM = 3.0`). -/
def maxZoom : F := 3

/-- Viewport interaction state of GPCanvas.vue (zoom, pan, drag bookkeeping). -/
structure VState (F : Type) where
  zoomLevel : F
  panOffset : F × F
  bounds : Bounds F
  isDragging : Bool
  hasDragged : Bool
  lastMousePos : F × F
  initialTouchDistance : F

/-- Viewport interaction events of GPCanvas.vue.  Each constructor carries the
numeric data the handler reads from the DOM event: mouse offsets, canvas
dimensions, the sign of `deltaY`, `detail === 2`, and (for touch) the distance
between the two touches (computed by the handler as `√(dx²+dy²)`). -/
inductive VEvent (F : Type) where
  | wheel (deltaYPos : Bool) (mouseX mouseY w h : F)
  | mouseDown (detail2 : Bool) (ox oy : F)
  | mouseMove (ox oy w h : F)
  | mouseUp
  | doubleClick
  | touchStartOne (cx cy : F)
  | touchStartTwo (dist : F)
  | touchMoveOne (cx cy w h : F)
  | touchMoveTwo (dist : F)
  | touchEnd

/-- GPCanvas.vue `clampPanOffset`: pan is limited so the view stays within a
world `MAX_SCALE_FACTOR` times the default view. -/
def clampPanOffset (zoom : F) (off : F × F) : F × F :=
  let worldWidth := ((defaultBounds : Bounds F).xMax - (defaultBounds : Bounds F).xMin) * maxScaleFactor
  let worldHeight := ((defaultBounds : Bounds F).yMax - (defaultBounds : Bounds F).yMin) * maxScaleFactor
  let viewWidth := ((defaultBounds : Bounds F).xMax - (defaultBounds : Bounds F).xMin) / zoom
  let viewHeight := ((defaultBounds : Bounds F).yMax - (defaultBounds : Bounds F).yMin) / zoom
  let maxPanX := max 0 ((worldWidth - viewWidth) / 2)
  let maxPanY := max 0 ((worldHeight - viewHeight) / 2)
  (max (-maxPanX) (min maxPanX off.1), max (-maxPanY) (min maxPanY off.2))

/-- GPCanvas.vue `updateBounds`: recompute visible bounds from zoom and pan. -/
def updateBounds (zoom : F) (off : F × F) : Bounds F :=
  let centerX := ((defaultBounds : Bounds F).xMin + (defaultBounds : Bounds F).xMax) / 2 + off.1
  let centerY := ((defaultBounds : Bounds F).yMin + (defaultBounds : Bounds F).yMax) / 2 + off.2
  let rangeX := ((defaultBounds : Bounds F).xMax - (defaultBounds : Bounds F).xMin) / (2 * zoom)
  let rangeY := ((defaultBounds : Bounds F).yMax - (defaultBounds : Bounds F).yMin) / (2 * zoom)
  ⟨centerX - rangeX, centerX + rangeX, centerY - rangeY, centerY + rangeY⟩

/-- One step of the GPCanvas.vue interaction handlers (`handleWheel`,
`handleMouseDown/Move/Up`, `handleDoubleClick`, `handleTouchStart/Move/End`),
transcribed case by case from the source. -/
def viewportStep (s : VState F) : VEvent F → VState F
  | .wheel deltaYPos mouseX mouseY w h =>
    let worldX := toDataX s.bounds w mouseX
    let worldY := toDataY s.bounds h mouseY
    let zoomFactor : F := if deltaYPos then 9 / 10 else 11 / 10
    let newZoom := max minZoom (min maxZoom (s.zoomLevel * zoomFactor))
    if newZoom = s.zoomLevel then s
    else
      let centerX := ((defaultBounds : Bounds F).xMin + (defaultBounds : Bounds F).xMax) / 2 + s.panOffset.1
      let centerY := ((defaultBounds : Bounds F).yMin + (defaultBounds : Bounds F).yMax) / 2 + s.panOffset.2
      let off := (s.panOffset.1 + (worldX - centerX) * (1 - zoomFactor),
                  s.panOffset.2 + (worldY - centerY) * (1 - zoomFactor))
      let off2 := clampPanOffset newZoom off
      { s with zoomLevel := newZoom, panOffset := off2, bounds := updateBounds newZoom off2 }
  | .mouseDown detail2 ox oy =>
    if detail2 then s
    else { s with isDragging := true, hasDragged := false, lastMousePos := (ox, oy) }
  | .mouseMove ox oy w h =>
    if s.isDragging then
      let deltaX := ox - s.lastMousePos.1
      let deltaY := oy - s.lastMousePos.2
      let dragged := if 1 < |deltaX| ∨ 1 < |deltaY| then true else s.hasDragged
      let off := (s.panOffset.1 - deltaX / w * (s.bounds.xMax - s.bounds.xMin),
                  s.panOffset.2 + deltaY / h * (s.bounds.yMax - s.bounds.yMin))
      let off2 := clampPanOffset s.zoomLevel off
      { s with hasDragged := dragged, panOffset := off2, lastMousePos := (ox, oy),
               bounds := updateBounds s.zoomLevel off2 }
    else s
  | .mouseUp => { s with isDragging := false }
  | .doubleClick =>
    { s with zoomLevel := 1, panOffset := (0, 0), bounds := updateBounds 1 (0, 0) }
  | .touchStartOne cx cy =>
    { s with isDragging := true, lastMousePos := (cx, cy) }
  | .touchStartTwo dist =>
    { s with initialTouchDistance := dist }
  | .touchMoveOne cx cy w h =>
    if s.isDragging then
      let deltaX := cx - s.lastMousePos.1
      let deltaY := cy - s.lastMousePos.2
      let off := (s.panOffset.1 - deltaX / w * (s.bounds.xMax - s.bounds.xMin),
                  s.panOffset.2 + deltaY / h * (s.bounds.yMax - s.bounds.yMin))
      let off2 := clampPanOffset s.zoomLevel off
      { s with panOffset := off2, lastMousePos := (cx, cy),
               bounds := updateBounds s.zoomLevel off2 }
    else s
  | .touchMoveTwo dist =>
    if 0 < s.initialTouchDistance then
      let zoomFactor := dist / s.initialTouchDistance
      let newZoom := max minZoom (min maxZoom (s.zoomLevel * zoomFactor))
      if newZoom = s.zoomLevel then s
      else { s with zoomLevel := newZoom, initialTouchDistance := dist,
                    bounds := updateBounds newZoom s.panOffset }
    else s
  | .touchEnd => { s with isDragging := false, initialTouchDistance := 0 }

/-- Initial viewport state of GPCanvas.vue: `zoomLevel = 1.0`,
`panOffset = {x: 0, y: 0}`, `bounds = defaultBounds`. -/
def vInit : VState F :=
  ⟨1, (0, 0), defaultBounds, false, false, (0, 0), 0⟩

/-- Run of the viewport step relation from the initial state. -/
def vRun (evs : List (VEvent F)) : VState F :=
  evs.foldl viewportStep vInit

/-- Application state of App.vue: observation points, sample history, bounds
received from the canvas, kernel choice, and slider values. -/
structure UIState (F : Type) where
  points : List (ObsPoint F)
  samples : List (GPSample F)
  bounds : Bounds F
  selectedKernel : KernelId
  paramValues : List F

/-- UI events handled by App.vue.  `addRandomPoints` carries the stream of
`Math.random()` draw pairs the loop consumes; `sampleGP` carries the random
y-vector `sampleFromGP` returned. -/
inductive UIEvent (F : Type) where
  | addPoint (p : ObsPoint F)
  | addRandomPoints (rand : ℕ → F × F)
  | sampleGP (sampleY : List F)
  | clearAll
  | updateParam (i : ℕ) (v : F)
  | updateKernel (k : KernelId)
  | boundsChange (b : Bounds F)

/-- One random point of the `addRandomPoints` loop body:
`x = xMin + r₁·(xMax - xMin)`, `y = yMin + r₂·(yMax - yMin)`. -/
def randomPoint (b : Bounds F) (r : F × F) : ObsPoint F :=
  ⟨b.xMin + r.1 * (b.xMax - b.xMin), b.yMin + r.2 * (b.yMax - b.yMin)⟩

/-- App.vue `sampleGP` history update: `samples.push(...)` followed by
`if (samples.length > 5) samples.shift()`. -/
def pushCapped (samples : List (GPSample F)) (s : GPSample F) : List (GPSample F) :=
  let pushed := samples ++ [s]
  if 5 < pushed.length then pushed.tail else pushed

/-- One step of the App.vue event handlers (`addPoint`, `addRandomPoints`,
`sampleGP`, `clearAll`, `updateParamValue`, `updateKernel`,
`handleBoundsChange`).  The `watch([points, params, selectedKernel])` callback
that clears `samples` is folded into the steps that mutate those values. -/
def uiStep (s : UIState F) : UIEvent F → UIState F
  | .addPoint p =>
    { s with points := s.points ++ [p], samples := [] }
  | .addRandomPoints rand =>
    { s with points := s.points ++ (List.range 5).map fun i => randomPoint s.bounds (rand i),
             samples := [] }
  | .sampleGP sampleY =>
    { s with samples := pushCapped s.samples ⟨testX s.bounds, sampleY⟩ }
  | .clearAll =>
    { s with points := [], samples := [] }
  | .updateParam i v =>
    { s with paramValues := s.paramValues.set i v, samples := [] }
  | .updateKernel k =>
    { s with selectedKernel := k, samples := [] }
  | .boundsChange b =>
    { s with bounds := b }

/-- Initial App.vue state: no points, no samples, default bounds, RBF kernel,
slider values `1.0, 1.0, 0.1`. -/
def uiInit : UIState F :=
  ⟨[], [], defaultBounds, .rbf, [1, 1, 1 / 10]⟩

/-- Run of the App.vue step relation from the initial state. -/
def uiRun (evs : List (UIEvent F)) : UIState F :=
  evs.foldl uiStep uiInit

end Defs

section Helpers

variable {F : Type} [LinearOrderedField F]

theorem exceptBind_error {e a b : Type} (x : e) (f : a → Except e b) :
    (Except.error x >>= f) = Except.error x := rfl

theorem exceptBind_ok {e a b : Type} (v : a) (f : a → Except e b) :
    (Except.ok v >>= f) = f v := rfl

theorem getD_map_of_lt {a b : Type} (l : List a) (f : a → b) (i : ℕ)
    (h : i < l.length) (d : b) :
    (l.map f).getD i d = f (l.get ⟨i, h⟩) := by
  rw [List.getD_eq_getElem?_getD, List.getElem?_map,
    List.getElem?_eq_getElem h]
  rfl

theorem linspace_length (a c : F) (n : ℕ) : (linspace a c n).length = n := by
  unfold linspace
  split
  · simp [*]
  · simp

theorem linspace_getD (a c : F) (n i : ℕ) (hi : i < n) (hn : n ≠ 1) :
    (linspace a c n).getD i 0 = a + (i : F) * ((c - a) / ((n : F) - 1)) := by
  unfold linspace
  rw [if_neg hn, List.getD_eq_getElem?_getD, List.getElem?_map,
    List.getElem?_range hi]
  rfl

end Helpers

section Claims

variable {F : Type} [LinearOrderedField F]

/-- C1: for every valid parameter record and every test grid, `computePosterior`
with an empty observations sequence succeeds and returns `mean[i] = 0` and
`variance[i] = signalVariance` at every test point — the GP prior. -/
theorem computePosterior_empty_prior (irr : Irr F) (tX : List F) (p : Params F)
    (_hp : ParamsValid p) :
    ∃ post : Posterior F,
      computePosterior irr ([] : List (ObsPoint F)) tX p = .ok post ∧
      post.mean.length = tX.length ∧ post.variance.length = tX.length ∧
      ∀ i, i < tX.length →
        post.mean.getD i 0 = 0 ∧ post.variance.getD i 0 = p.signalVariance := by
  refine ⟨⟨tX.map fun _ => 0, tX.map fun _ => p.signalVariance⟩, ?_, by simp, by simp, ?_⟩
  · simp [computePosterior]
  · intro i hi
    exact ⟨by rw [getD_map_of_lt tX _ i hi], by rw [getD_map_of_lt tX _ i hi]⟩

/-- Witness for C1 at a concrete input. -/
theorem computePosterior_empty_prior_witness :
    ParamsValid (⟨1, 1, 1 / 10, .rbf⟩ : Params ℚ) ∧
    ∃ post : Posterior ℚ,
      computePosterior (⟨id, id⟩ : Irr ℚ) [] [0, 1] ⟨1, 1, 1 / 10, .rbf⟩ = .ok post ∧
      post.mean.length = ([0, 1] : List ℚ).length ∧
      post.variance.length = ([0, 1] : List ℚ).length ∧
      ∀ i, i < ([0, 1] : List ℚ).length →
        post.mean.getD i 0 = 0 ∧
        post.variance.getD i 0 = (⟨1, 1, 1 / 10, .rbf⟩ : Params ℚ).signalVariance :=
  ⟨by norm_num [ParamsValid],
   computePosterior_empty_prior ⟨id, id⟩ [0, 1] ⟨1, 1, 1 / 10, .rbf⟩
     (by norm_num [ParamsValid])⟩

/-- C2: whenever `computePosterior` succeeds, the returned mean and variance
arrays both have the length of `testX`, and every variance entry is
nonnegative (clamped by `max 0`). -/
theorem computePosterior_shape_nonneg (irr : Irr F) (obs : List (ObsPoint F))
    (tX : List F) (p : Params F) (hp : ParamsValid p) (post : Posterior F)
    (h : computePosterior irr obs tX p = .ok post) :
    post.mean.length = tX.length ∧ post.variance.length = tX.length ∧
    ∀ i, i < tX.length → 0 ≤ post.variance.getD i 0 := by
  unfold computePosterior at h
  by_cases he : obs.isEmpty
  · rw [if_pos he] at h
    obtain rfl : (⟨tX.map fun _ => 0, tX.map fun _ => p.signalVariance⟩ : Posterior F)
        = post := by exact_mod_cast congrArg (fun r => r.getD ⟨[], []⟩) (congrArg Except.toOption h)
    refine ⟨by simp, by simp, ?_⟩
    intro i hi
    rw [getD_map_of_lt tX _ i hi]
    exact hp.2.1.le
  · rw [if_neg he] at h
    cases hc : cholesky irr.sqrt (covMatrix irr obs p) with
    | error e => rw [hc] at h; exact absurd h (by simp)
    | ok L =>
      rw [hc] at h
      obtain rfl :
          (⟨tX.map fun t =>
              dotL (obs.map fun o => resolveKernel irr p o.x t)
                (choleskySolve L (obs.map fun o => o.y)),
            tX.map fun t =>
              max 0 (resolveKernel irr p t t -
                dotL (solveL L (obs.map fun o => resolveKernel irr p o.x t))
                     (solveL L (obs.map fun o => resolveKernel irr p o.x t)))⟩ : Posterior F)
          = post := by
        exact_mod_cast congrArg (fun r => r.getD ⟨[], []⟩) (congrArg Except.toOption h)
      refine ⟨by simp, by simp, ?_⟩
      intro i hi
      rw [getD_map_of_lt tX _ i hi]
      exact le_max_left 0 _

/-- Witness for C2 at a concrete input on which `computePosterior` succeeds. -/
theorem computePosterior_shape_nonneg_witness :
    ParamsValid (⟨1, 1, 1, .rbf⟩ : Params ℚ) ∧
    computePosterior (⟨id, id⟩ : Irr ℚ) [⟨0, 1⟩] [0] ⟨1, 1, 1, .rbf⟩
      = .ok (⟨[0], [0]⟩ : Posterior ℚ) ∧
    ((⟨[0], [0]⟩ : Posterior ℚ).mean.length = ([0] : List ℚ).length ∧
      (⟨[0], [0]⟩ : Posterior ℚ).variance.length = ([0] : List ℚ).length ∧
      ∀ i, i < ([0] : List ℚ).length →
        0 ≤ (⟨[0], [0]⟩ : Posterior ℚ).variance.getD i 0) := by
  have hval : ParamsValid (⟨1, 1, 1, .rbf⟩ : Params ℚ) := by norm_num [ParamsValid]
  have heq : computePosterior (⟨id, id⟩ : Irr ℚ) [⟨0, 1⟩] [0] ⟨1, 1, 1, .rbf⟩
      = .ok (⟨[0], [0]⟩ : Posterior ℚ) := by
    norm_num [computePosterior, covMatrix, resolveKernel, rbf, cholesky, List.foldlM,
      cholStep, cholPivot, cholOffDiag, dotL, choleskySolve, solveL, solveLt,
      List.mapIdx_cons, List.range_succ, exceptBind_error, exceptBind_ok]
  exact ⟨hval, heq,
    computePosterior_shape_nonneg (⟨id, id⟩ : Irr ℚ) [⟨0, 1⟩] [0] ⟨1, 1, 1, .rbf⟩
      hval (⟨[0], [0]⟩ : Posterior ℚ) heq⟩

/-- C3 counterexample: the claim that the grid passed to `sampleFromGP` has 150
points fails on the current App.vue, which passes `testX.value` — a 300-point
grid — already at the default viewport bounds. -/
theorem sampleGrid_not150 :
    ¬ (sampleGPGrid (defaultBounds : Bounds ℚ)).length = 150 := by
  rw [sampleGPGrid, testX, linspace_length]
  norm_num [numTest]

/-- C3 amended: in the current App.vue, `sampleFromGP` is called on `testX`
itself, the same 300-point display grid used for `computePosterior`; a
150-point sampling grid exists only in the legacy App.vue variant that imports
from `@/utils/gp`. -/
theorem sampleGrid_equals_display (b : Bounds F) :
    sampleGPGrid b = testX b ∧ (sampleGPGrid b).length = 300 ∧
    (testX b).length = 300 ∧ (legacySampleGrid b).length = 150 := by
  refine ⟨rfl, ?_, ?_, ?_⟩ <;>
    simp [sampleGPGrid, testX, legacySampleGrid, linspace_length, numTest]

/-- C4: the sample history never exceeds 5 entries — the sample action appends
exactly one sample, evicting the oldest when the history is full, and every
App.vue operation preserves the bound starting from the initial state. -/
theorem sampleHistory_capped :
    (∀ evs : List (UIEvent F), (uiRun evs).samples.length ≤ 5) ∧
    (∀ (s : UIState F) (sampleY : List F), s.samples.length < 5 →
      (uiStep s (.sampleGP sampleY)).samples
        = s.samples ++ [⟨testX s.bounds, sampleY⟩]) ∧
    (∀ (s : UIState F) (sampleY : List F), s.samples.length = 5 →
      (uiStep s (.sampleGP sampleY)).samples
        = s.samples.tail ++ [⟨testX s.bounds, sampleY⟩]) ∧
    (∀ (s : UIState F) (e : UIEvent F), s.samples.length ≤ 5 →
      (uiStep s e).samples.length ≤ 5) := by
  have hstep : ∀ (s : UIState F) (e : UIEvent F), s.samples.length ≤ 5 →
      (uiStep s e).samples.length ≤ 5 := by
    intro s e h
    cases e with
    | sampleGP sampleY =>
      simp only [uiStep, pushCapped]
      split
      · next hgt => simp only [List.length_tail, List.length_append,
          List.length_singleton]; omega
      · next hle => simp only [List.length_append, List.length_singleton] at hle ⊢; omega
    | boundsChange b => simpa [uiStep] using h
    | addPoint p => simp [uiStep]
    | addRandomPoints r => simp [uiStep]
    | clearAll => simp [uiStep]
    | updateParam i v => simp [uiStep]
    | updateKernel k => simp [uiStep]
  refine ⟨?_, ?_, ?_, hstep⟩
  · have hrun : ∀ (evs : List (UIEvent F)) (s : UIState F), s.samples.length ≤ 5 →
        (evs.foldl uiStep s).samples.length ≤ 5 := by
      intro evs
      induction evs with
      | nil => intro s h; exact h
      | cons e rest ih => intro s h; exact ih _ (hstep s e h)
    intro evs
    exact hrun evs uiInit (by simp [uiInit])
  · intro s sampleY h
    rw [uiStep]
    simp only [pushCapped]
    rw [if_neg (by simp; omega)]
  · intro s sampleY h
    rw [uiStep]
    simp only [pushCapped]
    rw [if_pos (by simp [h])]
    cases hs : s.samples with
    | nil => rw [hs] at h; simp at h
    | cons a t => simp

/-- Witness for C4 at a concrete input: sampling from the initial state
appends the one new sample. -/
theorem sampleHistory_capped_witness :
    (uiInit : UIState ℚ).samples.length < 5 ∧
    (uiStep (uiInit : UIState ℚ) (.sampleGP [])).samples
      = (uiInit : UIState ℚ).samples ++ [⟨testX (uiInit : UIState ℚ).bounds, []⟩] :=
  ⟨by simp [uiInit],
   sampleHistory_capped.2.1 (uiInit : UIState ℚ) [] (by simp [uiInit])⟩

/-- C5: the Cholesky factorization fails with the `NotPositiveDefiniteError`
signal whenever a diagonal pivot becomes `≤ 0` — at the failing step, hence for
the whole factorization — and `computePosterior` propagates that error rather
than returning a result. -/
theorem cholesky_nonpositive_pivot_fails :
    (∀ (sq : F → F) (L : List (List F)) (Ai : List F),
      cholPivot Ai L ≤ 0 → cholStep sq L Ai = .error .notPositiveDefinite) ∧
    (∀ (sq : F → F) (A1 : List (List F)) (Ai : List F) (A2 : List (List F))
        (L : List (List F)),
      cholesky sq A1 = .ok L → cholPivot Ai L ≤ 0 →
      cholesky sq (A1 ++ Ai :: A2) = .error .notPositiveDefinite) ∧
    (∀ (irr : Irr F) (obs : List (ObsPoint F)) (tX : List F) (p : Params F)
        (e : CholError),
      obs.isEmpty = false →
      cholesky irr.sqrt (covMatrix irr obs p) = .error e →
      computePosterior irr obs tX p = .error e) := by
  have hfold : ∀ (sq : F → F) (l1 l2 : List (List F)) (b : List (List F)),
      (l1 ++ l2).foldlM (cholStep sq) b
        = (l1.foldlM (cholStep sq) b) >>= fun b2 => l2.foldlM (cholStep sq) b2 := by
    intro sq l1
    induction l1 with
    | nil => intro l2 b; rw [List.nil_append]; rfl
    | cons a as ih =>
      intro l2 b
      show (cholStep sq b a >>= fun b2 => (as ++ l2).foldlM (cholStep sq) b2)
        = ((cholStep sq b a >>= fun b2 => as.foldlM (cholStep sq) b2) >>= _)
      cases cholStep sq b a with
      | error e => rfl
      | ok v => exact ih l2 v
  have hone : ∀ (sq : F → F) (L : List (List F)) (Ai : List F),
      cholPivot Ai L ≤ 0 → cholStep sq L Ai = .error .notPositiveDefinite := by
    intro sq L Ai h
    rw [cholStep, if_pos h]
  refine ⟨hone, ?_, ?_⟩
  · intro sq A1 Ai A2 L h1 h2
    rw [cholesky, hfold, show A1.foldlM (cholStep sq) [] = .ok L from h1,
      exceptBind_ok]
    show (cholStep sq L Ai >>= fun b2 => A2.foldlM (cholStep sq) b2) = _
    rw [hone sq L Ai h2]
    rfl
  · intro irr obs tX p e hne hc
    rw [computePosterior, if_neg (by simp [hne]), hc]

/-- Witness for C5: two observations at the same x with zero noise (and the
transcendental primitives interpreted as the identity) make the very first
pivot 0, so Cholesky and the whole posterior computation fail. -/
theorem cholesky_nonpositive_pivot_fails_witness :
    cholPivot ([0, 0] : List ℚ) [] ≤ 0 ∧
    cholesky (id : ℚ → ℚ) [] = .ok [] ∧
    cholesky (id : ℚ → ℚ) [[0, 0], [0, 0]] = .error .notPositiveDefinite ∧
    ([⟨0, 1⟩, ⟨0, 2⟩] : List (ObsPoint ℚ)).isEmpty = false ∧
    cholesky (⟨id, id⟩ : Irr ℚ).sqrt
        (covMatrix ⟨id, id⟩ [⟨0, 1⟩, ⟨0, 2⟩] ⟨1, 1, 0, .rbf⟩)
      = .error .notPositiveDefinite ∧
    computePosterior (⟨id, id⟩ : Irr ℚ) [⟨0, 1⟩, ⟨0, 2⟩] [0] ⟨1, 1, 0, .rbf⟩
      = .error .notPositiveDefinite := by
  have hpiv : cholPivot ([0, 0] : List ℚ) [] ≤ 0 := by
    norm_num [cholPivot, cholOffDiag, dotL]
  have hnil : cholesky (id : ℚ → ℚ) [] = .ok [] := rfl
  have hchol : cholesky (⟨id, id⟩ : Irr ℚ).sqrt
      (covMatrix ⟨id, id⟩ [⟨0, 1⟩, ⟨0, 2⟩] ⟨1, 1, 0, .rbf⟩)
      = .error .notPositiveDefinite := by
    norm_num [covMatrix, resolveKernel, rbf, cholesky, List.foldlM, cholStep,
      cholPivot, cholOffDiag, dotL, List.mapIdx_cons, exceptBind_error, exceptBind_ok]
  refine ⟨hpiv, hnil, ?_, rfl, hchol, ?_⟩
  · exact cholesky_nonpositive_pivot_fails.2.1 id [] [0, 0] [[0, 0]] [] hnil hpiv
  · exact cholesky_nonpositive_pivot_fails.2.2 ⟨id, id⟩ [⟨0, 1⟩, ⟨0, 2⟩] [0]
      ⟨1, 1, 0, .rbf⟩ .notPositiveDefinite rfl hchol

/-- C6: the display test grid is `linspace(bounds.xMin, bounds.xMax, 300)`:
exactly 300 points, first `xMin`, last `xMax`, strictly increasing and evenly
spaced, whenever `xMin < xMax`. -/
theorem testX_linspace_properties (b : Bounds F) (hb : b.xMin < b.xMax) :
    (testX b).length = 300 ∧
    (testX b).getD 0 0 = b.xMin ∧
    (testX b).getD 299 0 = b.xMax ∧
    (∀ i, i + 1 < 300 → (testX b).getD i 0 < (testX b).getD (i + 1) 0) ∧
    (∀ i, i + 1 < 300 →
      (testX b).getD (i + 1) 0 - (testX b).getD i 0 = (b.xMax - b.xMin) / 299) := by
  have hgd : ∀ i : ℕ, i < 300 →
      (testX b).getD i 0 = b.xMin + (i : F) * ((b.xMax - b.xMin) / 299) := by
    intro i hi
    rw [testX, linspace_getD b.xMin b.xMax numTest i (by simpa [numTest] using hi)
      (by norm_num [numTest])]
    norm_num [numTest]
  have hstep : (0 : F) < (b.xMax - b.xMin) / 299 :=
    div_pos (sub_pos.mpr hb) (by norm_num)
  refine ⟨?_, ?_, ?_, ?_, ?_⟩
  · rw [testX, linspace_length]
    rfl
  · rw [hgd 0 (by norm_num)]
    simp
  · rw [hgd 299 (by norm_num)]
    have h299 : (299 : F) ≠ 0 := by norm_num
    field_simp
  · intro i hi
    rw [hgd i (by omega), hgd (i + 1) (by omega)]
    push_cast
    nlinarith [hstep]
  · intro i hi
    rw [hgd i (by omega), hgd (i + 1) (by omega)]
    push_cast
    ring

/-- Witness for C6 at the default bounds. -/
theorem testX_linspace_properties_witness :
    (defaultBounds : Bounds ℚ).xMin < (defaultBounds : Bounds ℚ).xMax ∧
    ((testX (defaultBounds : Bounds ℚ)).length = 300 ∧
      (testX (defaultBounds : Bounds ℚ)).getD 0 0 = (defaultBounds : Bounds ℚ).xMin ∧
      (testX (defaultBounds : Bounds ℚ)).getD 299 0 = (defaultBounds : Bounds ℚ).xMax ∧
      (∀ i, i + 1 < 300 → (testX (defaultBounds : Bounds ℚ)).getD i 0
        < (testX (defaultBounds : Bounds ℚ)).getD (i + 1) 0) ∧
      (∀ i, i + 1 < 300 →
        (testX (defaultBounds : Bounds ℚ)).getD (i + 1) 0
            - (testX (defaultBounds : Bounds ℚ)).getD i 0
          = ((defaultBounds : Bounds ℚ).xMax - (defaultBounds : Bounds ℚ).xMin) / 299)) :=
  ⟨by norm_num [defaultBounds],
   testX_linspace_properties (defaultBounds : Bounds ℚ) (by norm_num [defaultBounds])⟩

/-- C7: every App.vue operation either appends new observation points
(`addPoint` appends one, `addRandomPoints` appends its batch) or empties the
whole set (`clearAll`); no operation edits or removes a proper subset of
existing points. -/
theorem points_append_or_clear :
    (∀ (s : UIState F) (e : UIEvent F),
      (∃ added, (uiStep s e).points = s.points ++ added) ∨ (uiStep s e).points = []) ∧
    (∀ (s : UIState F) (p : ObsPoint F),
      (uiStep s (.addPoint p)).points = s.points ++ [p]) ∧
    (∀ (s : UIState F) (rand : ℕ → F × F),
      (uiStep s (.addRandomPoints rand)).points
        = s.points ++ (List.range 5).map fun i => randomPoint s.bounds (rand i)) ∧
    (∀ s : UIState F, (uiStep s .clearAll).points = []) := by
  refine ⟨?_, fun s p => rfl, fun s rand => rfl, fun s => rfl⟩
  intro s e
  cases e with
  | addPoint p => exact .inl ⟨[p], rfl⟩
  | addRandomPoints rand => exact .inl ⟨_, rfl⟩
  | sampleGP sampleY => exact .inl ⟨[], by simp [uiStep]⟩
  | clearAll => exact .inr rfl
  | updateParam i v => exact .inl ⟨[], by simp [uiStep]⟩
  | updateKernel k => exact .inl ⟨[], by simp [uiStep]⟩
  | boundsChange b2 => exact .inl ⟨[], by simp [uiStep]⟩

/-- C8: the canvas coordinate transforms are mutually inverse in exact
arithmetic, given positive canvas dimensions and non-degenerate bounds. -/
theorem transforms_roundTrip (b : Bounds F) (w h x y cx cy : F)
    (hw : 0 < w) (hx : b.xMin < b.xMax) (hh : 0 < h) (hy : b.yMin < b.yMax) :
    toDataX b w (toCanvasX b w x) = x ∧ toCanvasX b w (toDataX b w cx) = cx ∧
    toDataY b h (toCanvasY b h y) = y ∧ toCanvasY b h (toDataY b h cy) = cy := by
  have hw0 : w ≠ 0 := ne_of_gt hw
  have hh0 : h ≠ 0 := ne_of_gt hh
  have hx0 : b.xMax - b.xMin ≠ 0 := sub_ne_zero.mpr (ne_of_gt hx)
  have hy0 : b.yMax - b.yMin ≠ 0 := sub_ne_zero.mpr (ne_of_gt hy)
  refine ⟨?_, ?_, ?_, ?_⟩ <;>
    (simp only [toDataX, toCanvasX, toDataY, toCanvasY]; field_simp) <;> ring

/-- Witness for C8 at the default bounds with unit canvas dimensions. -/
theorem transforms_roundTrip_witness :
    (0 : ℚ) < 1 ∧
    (defaultBounds : Bounds ℚ).xMin < (defaultBounds : Bounds ℚ).xMax ∧
    (defaultBounds : Bounds ℚ).yMin < (defaultBounds : Bounds ℚ).yMax ∧
    (toDataX (defaultBounds : Bounds ℚ) 1 (toCanvasX defaultBounds 1 0) = 0 ∧
      toCanvasX (defaultBounds : Bounds ℚ) 1 (toDataX defaultBounds 1 0) = 0 ∧
      toDataY (defaultBounds : Bounds ℚ) 1 (toCanvasY defaultBounds 1 0) = 0 ∧
      toCanvasY (defaultBounds : Bounds ℚ) 1 (toDataY defaultBounds 1 0) = 0) :=
  ⟨by norm_num, by norm_num [defaultBounds], by norm_num [defaultBounds],
   transforms_roundTrip (defaultBounds : Bounds ℚ) 1 1 0 0 0 0 (by norm_num)
     (by norm_num [defaultBounds]) (by norm_num) (by norm_num [defaultBounds])⟩

/-- C9: starting from `zoomLevel = 1.0`, after any sequence of interaction
events the zoom level stays within `[MIN_ZOOM, MAX_ZOOM] = [0.25, 3.0]`, and a
double click always restores `zoomLevel = 1`, `panOffset = (0, 0)` and the
default bounds. -/
theorem zoom_invariant :
    (∀ evs : List (VEvent F),
      minZoom ≤ (vRun evs).zoomLevel ∧ (vRun evs).zoomLevel ≤ (maxZoom : F)) ∧
    (∀ s : VState F,
      (viewportStep s .doubleClick).zoomLevel = 1 ∧
      (viewportStep s .doubleClick).panOffset = (0, 0) ∧
      (viewportStep s .doubleClick).bounds = defaultBounds) := by
  have hone : (minZoom : F) ≤ 1 ∧ (1 : F) ≤ maxZoom ∧ (minZoom : F) ≤ maxZoom := by
    norm_num [minZoom, maxZoom, maxScaleFactor]
  have hclamp : ∀ v : F, minZoom ≤ max minZoom (min maxZoom v) ∧
      max minZoom (min maxZoom v) ≤ maxZoom :=
    fun v => ⟨le_max_left _ _, max_le hone.2.2 (min_le_left _ _)⟩
  have hstep : ∀ (s : VState F) (e : VEvent F),
      minZoom ≤ s.zoomLevel ∧ s.zoomLevel ≤ maxZoom →
      minZoom ≤ (viewportStep s e).zoomLevel
        ∧ (viewportStep s e).zoomLevel ≤ maxZoom := by
    intro s e h
    cases e <;> simp only [viewportStep] <;> (repeat' split) <;>
      first
        | exact h
        | exact hclamp _
        | exact ⟨hone.1, hone.2.1⟩
  have hrun : ∀ (evs : List (VEvent F)) (s : VState F),
      minZoom ≤ s.zoomLevel ∧ s.zoomLevel ≤ maxZoom →
      minZoom ≤ (evs.foldl viewportStep s).zoomLevel
        ∧ (evs.foldl viewportStep s).zoomLevel ≤ maxZoom := by
    intro evs
    induction evs with
    | nil => intro s h; exact h
    | cons e rest ih => intro s h; exact ih _ (hstep s e h)
  refine ⟨fun evs => hrun evs vInit ⟨hone.1, hone.2.1⟩, ?_⟩
  intro s
  refine ⟨rfl, rfl, ?_⟩
  show updateBounds (1 : F) (0, 0) = defaultBounds
  simp only [updateBounds, defaultBounds, Bounds.mk.injEq]
  norm_num

/-- C10: `addRandomPoints` appends exactly 5 new points, keeps every existing
point (same order, same values), and — for uniform draws in `[0,1)` and
non-degenerate bounds — every new point lies within the current bounds. -/
theorem addRandomPoints_spec (s : UIState F) (rand : ℕ → F × F) :
    ((uiStep s (.addRandomPoints rand)).points.length = s.points.length + 5) ∧
    ((uiStep s (.addRandomPoints rand)).points.take s.points.length = s.points) ∧
    (s.bounds.xMin ≤ s.bounds.xMax → s.bounds.yMin ≤ s.bounds.yMax →
      (∀ i, i < 5 → 0 ≤ (rand i).1 ∧ (rand i).1 < 1 ∧ 0 ≤ (rand i).2 ∧ (rand i).2 < 1) →
      ∀ q ∈ (uiStep s (.addRandomPoints rand)).points.drop s.points.length,
        s.bounds.xMin ≤ q.x ∧ q.x ≤ s.bounds.xMax ∧
        s.bounds.yMin ≤ q.y ∧ q.y ≤ s.bounds.yMax) := by
  refine ⟨by simp [uiStep], ?_, ?_⟩
  · show (s.points ++ _).take s.points.length = s.points
    exact List.take_left _ _
  · intro hx hy hr q hq
    rw [show (uiStep s (.addRandomPoints rand)).points
        = s.points ++ (List.range 5).map (fun i => randomPoint s.bounds (rand i))
      from rfl, List.drop_left] at hq
    obtain ⟨i, hi, rfl⟩ := List.mem_map.mp hq
    rw [List.mem_range] at hi
    obtain ⟨h1, h2, h3, h4⟩ := hr i hi
    have hdx : 0 ≤ s.bounds.xMax - s.bounds.xMin := sub_nonneg.mpr hx
    have hdy : 0 ≤ s.bounds.yMax - s.bounds.yMin := sub_nonneg.mpr hy
    refine ⟨?_, ?_, ?_, ?_⟩ <;> simp only [randomPoint]
    · nlinarith [mul_nonneg h1 hdx]
    · nlinarith [mul_le_of_le_one_left hdx (le_of_lt h2)]
    · nlinarith [mul_nonneg h3 hdy]
    · nlinarith [mul_le_of_le_one_left hdy (le_of_lt h4)]

/-- Witness for C10: adding 5 random points from the initial state with all
draws equal to 0. -/
theorem addRandomPoints_spec_witness :
    ((uiStep (uiInit : UIState ℚ) (.addRandomPoints fun _ => (0, 0))).points.length
      = (uiInit : UIState ℚ).points.length + 5) ∧
    ∀ q ∈ (uiStep (uiInit : UIState ℚ) (.addRandomPoints fun _ => (0, 0))).points.drop
        (uiInit : UIState ℚ).points.length,
      (uiInit : UIState ℚ).bounds.xMin ≤ q.x ∧ q.x ≤ (uiInit : UIState ℚ).bounds.xMax ∧
      (uiInit : UIState ℚ).bounds.yMin ≤ q.y ∧ q.y ≤ (uiInit : UIState ℚ).bounds.yMax :=
  ⟨(addRandomPoints_spec (uiInit : UIState ℚ) fun _ => (0, 0)).1,
   (addRandomPoints_spec (uiInit : UIState ℚ) fun _ => (0, 0)).2.2
     (by norm_num [uiInit, defaultBounds]) (by norm_num [uiInit, defaultBounds])
     (by intro i hi; norm_num)⟩

end Claims

end GPV
